import Mathlib

set_option maxHeartbeats 1000000

/-!
A shallow embedding of the text-extraction orchestration core in
`src/main.py`: the single-item pipeline `extract_single_file`, the
directory batch walker `extract_directory`, and the exit-code dispatch of
`main`.  The filesystem below the input root is modelled as a forest of
named nodes in directory-listing order; the external extraction capability
(`TextExtractor.extract_text`) and the output writer (`mkdir` plus
`write_text`) are oracles collected in an `Env`; a raised Python exception
is `Except.error`; capability invocations and filesystem writes are
returned as traces so that side effects are observable.
-/

/-- A filesystem node: a plain file, or a directory with its children in
directory-listing order. -/
inductive FSTree where
  | file (name : String)
  | dir (name : String) (children : List FSTree)
deriving Repr

/-- The final path component of a node. -/
def FSTree.name : FSTree → String
  | .file n => n
  | .dir n _ => n

/-- Whether a node is a directory. -/
def FSTree.isDirNode : FSTree → Bool
  | .file _ => false
  | .dir _ _ => true

/-- An entry yielded by the recursive walk: its path (segments relative to
the walk root) and the node found there. -/
structure Entry where
  path : List String
  node : FSTree
deriving Repr

/-- Index of the last '.' in a list of characters, if any. -/
def rfindDot : List Char → Option Nat
  | [] => none
  | c :: cs =>
    match rfindDot cs with
    | some i => some (i + 1)
    | none => if c = '.' then some 0 else none

/-- pathlib's `PurePath.suffix` of a file name: the part from the last dot
on, empty when the dot is leading, trailing or absent. -/
def pySuffix (name : String) : String :=
  let cs := name.toList
  match rfindDot cs with
  | none => ""
  | some i => if 0 < i ∧ i < cs.length - 1 then String.mk (cs.drop i) else ""

/-- pathlib's `with_suffix('.txt')` applied to a file name: the current
suffix (possibly empty) is removed and `.txt` appended. -/
def withSuffixTxt (name : String) : String :=
  String.mk (name.toList.take (name.toList.length - (pySuffix name).toList.length)) ++ ".txt"

/-- The final segment of a path (the file name). -/
def lastSeg (p : List String) : String := (p.getLast?).getD ""

/-- The `supported_extensions` set of `extract_directory`. -/
def supportedExtensions : List String :=
  [".pdf", ".hwp", ".hwpx", ".xlsx", ".xls", ".xlsm", ".docx", ".zip"]

/-- Python's `str.lower()`, character by character (the compared suffixes
are ASCII). -/
def lowerStr (s : String) : String := String.mk (s.toList.map Char.toLower)

/-- The candidate filter `f.suffix.lower() in supported_extensions`. -/
def isSupported (name : String) : Bool :=
  supportedExtensions.contains (lowerStr (pySuffix name))

mutual

/-- Entries strictly below one node, paths relative to that node, in
`rglob('*')` order: a directory's own children first, then the entries
below each child, child by child in listing order. -/
def rglobT : FSTree → List Entry
  | .file _ => []
  | .dir _ cs => cs.map (fun c => ⟨[c.name], c⟩) ++ rglobRest cs

/-- Entries below each member of a sibling list, in listing order, with the
member's name prepended to every path. -/
def rglobRest : List FSTree → List Entry
  | [] => []
  | c :: cs => (rglobT c).map (fun e => ⟨c.name :: e.path, e.node⟩) ++ rglobRest cs

end

/-- All entries below the input root, as `input_dir.rglob('*')` yields
them. -/
def walkRoot (cs : List FSTree) : List Entry :=
  cs.map (fun c => ⟨[c.name], c⟩) ++ rglobRest cs

/-- The walker's candidate list, line 53 of `main.py`: every walked entry
whose suffix, lowercased, is in the supported set — with no check that the
entry is a regular file. -/
def candidates (cs : List FSTree) : List Entry :=
  (walkRoot cs).filter (fun e => isSupported (lastSeg e.path))

/-- The dictionary returned by `TextExtractor.extract_text`; every key may
be absent. -/
structure ExtractResult where
  text : Option String
  char_count : Option Nat
  word_count : Option Nat
  error : Option String
deriving Repr, DecidableEq

/-- Python truthiness of `result.get('error')`: the key is present with a
non-empty value. -/
def errTruthy (r : ExtractResult) : Bool :=
  match r.error with
  | some s => s != ""
  | none => false

/-- Python truthiness of `result.get('text')`: the key is present with a
non-empty value. -/
def textTruthy (r : ExtractResult) : Bool :=
  match r.text with
  | some s => s != ""
  | none => false

/-- The external collaborators: the extraction capability and the output
writer (parent-directory creation and the file write merged into one
operation); `Except.error` models a raised exception. -/
structure Env where
  extract : List String → Except String ExtractResult
  write : List String → String → Except String Unit

/-- `extract_single_file` (lines 24-43): returns the raw result dictionary
together with the list of writes performed; an exception raised by the
capability call or by the output write propagates as `Except.error`. -/
def extract_single_file (env : Env) (file_path : List String)
    (output_path : Option (List String)) :
    Except String (ExtractResult × List (List String × String)) :=
  match env.extract file_path with
  | .error m => .error m
  | .ok result =>
    if errTruthy result then .ok (result, [])
    else
      match output_path with
      | some op =>
        if textTruthy result then
          match env.write op (result.text.getD "") with
          | .error m => .error m
          | .ok _ => .ok (result, [(op, result.text.getD "")])
        else .ok (result, [])
      | none => .ok (result, [])

/-- One `file_result` dictionary of the batch loop (lines 72-80), including
the conditional `'error'` key. -/
structure FileRecord where
  file : List String
  success : Bool
  chars : Nat
  words : Nat
  err : Option String
deriving Repr, DecidableEq

/-- The `file_result` built for one entry from the capability's result. -/
def recordOf (e : Entry) (r : ExtractResult) : FileRecord :=
  ⟨e.path, !errTruthy r, r.char_count.getD 0, r.word_count.getD 0,
    if errTruthy r then r.error else none⟩

/-- The `results` accumulator of `extract_directory`, extended with the
trace of capability invocations and of performed writes. -/
structure BatchState where
  processed : Nat
  errors : Nat
  files : List FileRecord
  calls : List (List String)
  writes : List (List String × String)
deriving Repr, DecidableEq

/-- `output_dir / relative_path.with_suffix('.txt')` for an entry path
taken relative to the input root (lines 89-90). -/
def mapOutPath (out p : List String) : List String :=
  out ++ p.dropLast ++ [withSuffixTxt (lastSeg p)]

/-- One iteration of the `for file_path in files` loop (lines 67-94). -/
def batchStep (env : Env) (out? : Option (List String)) (st : BatchState)
    (e : Entry) : Except String BatchState :=
  match env.extract e.path with
  | .error m => .error m
  | .ok r =>
    if errTruthy r then
      .ok ⟨st.processed, st.errors + 1, st.files ++ [recordOf e r],
        st.calls ++ [e.path], st.writes⟩
    else
      match out? with
      | some out =>
        if textTruthy r then
          match env.write (mapOutPath out e.path) (r.text.getD "") with
          | .error m => .error m
          | .ok _ =>
            .ok ⟨st.processed + 1, st.errors, st.files ++ [recordOf e r],
              st.calls ++ [e.path],
              st.writes ++ [(mapOutPath out e.path, r.text.getD "")]⟩
        else
          .ok ⟨st.processed + 1, st.errors, st.files ++ [recordOf e r],
            st.calls ++ [e.path], st.writes⟩
      | none =>
        .ok ⟨st.processed + 1, st.errors, st.files ++ [recordOf e r],
          st.calls ++ [e.path], st.writes⟩

/-- The batch loop: left-to-right over the candidate entries, aborting on
the first raised exception. -/
def runBatch (env : Env) (out? : Option (List String)) :
    List Entry → BatchState → Except String BatchState
  | [], st => .ok st
  | e :: es, st =>
    match batchStep env out? st e with
    | .error m => .error m
    | .ok st1 => runBatch env out? es st1

/-- `extract_directory` (lines 46-99): the empty report when no candidate
is found, otherwise the loop from the zeroed accumulator. -/
def extract_directory (env : Env) (tree : List FSTree)
    (out? : Option (List String)) : Except String BatchState :=
  let files := candidates tree
  if files.isEmpty then .ok ⟨0, 0, [], [], []⟩
  else runBatch env out? files ⟨0, 0, [], [], []⟩

/-- Classification of the CLI input path (lines 157-178). -/
inductive PathKind where
  | missing
  | isFile
  | isDir
  | other
deriving Repr, DecidableEq

/-- The exit-code dispatch of `main` (lines 154-178): `sys.exit(n)` becomes
`.ok n`, an uncaught exception becomes `.error`. -/
def mainExit (env : Env) (pk : PathKind) (file_path : List String)
    (tree : List FSTree) (out? : Option (List String)) : Except String Nat :=
  match pk with
  | .missing => .ok 1
  | .isFile =>
    match extract_single_file env file_path out? with
    | .error m => .error m
    | .ok (result, _) => .ok (if errTruthy result then 1 else 0)
  | .isDir =>
    match extract_directory env tree out? with
    | .error m => .error m
    | .ok st => .ok (if st.errors = 0 then 0 else 1)
  | .other => .ok 1

mutual

/-- Modelled from the spec: a depth-first node pre-order traversal of one
node — the node itself, then its descendants. -/
def preorderT : FSTree → List Entry
  | .file n => [⟨[n], .file n⟩]
  | .dir n cs =>
    ⟨[n], .dir n cs⟩ :: (preorderF cs).map (fun e => ⟨n :: e.path, e.node⟩)

/-- Modelled from the spec: depth-first node pre-order over a forest. -/
def preorderF : List FSTree → List Entry
  | [] => []
  | c :: cs => preorderT c ++ preorderF cs

end

/-- Modelled from the spec: the matching paths in depth-first node
pre-order. -/
def specPreorderPaths (cs : List FSTree) : List (List String) :=
  ((preorderF cs).filter (fun e => isSupported (lastSeg e.path))).map (fun e => e.path)

/-- A path joined with '/'. -/
def pathStr (p : List String) : String := String.intercalate "/" p

/-- Lexicographic comparison of character lists by code point. -/
def charLe : List Char → List Char → Bool
  | [], _ => true
  | _ :: _, [] => false
  | a :: as, b :: bs =>
    if a.toNat < b.toNat then true
    else if b.toNat < a.toNat then false
    else charLe as bs

/-- Lexicographic comparison of paths by their joined form. -/
def pathLe (p q : List String) : Bool := charLe (pathStr p).toList (pathStr q).toList

/-- Insertion into a list kept ascending by joined path. -/
def insertAsc (p : List String) : List (List String) → List (List String)
  | [] => [p]
  | q :: qs => if pathLe p q then p :: q :: qs else q :: insertAsc p qs

/-- Insertion sort by joined path. -/
def sortAsc : List (List String) → List (List String)
  | [] => []
  | p :: ps => insertAsc p (sortAsc ps)

/-- Modelled from the spec: the matching paths sorted lexically by full
relative path. -/
def specLexicalPaths (cs : List FSTree) : List (List String) :=
  sortAsc ((candidates cs).map (fun e => e.path))

/-- Modelled from the spec: the number of regular files (directories
excluded) under the root whose extension is in the supported set. -/
def specFileCount (cs : List FSTree) : Nat :=
  ((walkRoot cs).filter
    (fun e => !e.node.isDirNode && isSupported (lastSeg e.path))).length

/-- The writes a completed loop performs for a given candidate list: one
mirrored-path write per capability result that reports no error and has
non-empty text. -/
def stepWrites (out? : Option (List String)) (e : Entry) (r : ExtractResult) :
    List (List String × String) :=
  match out? with
  | some out =>
    if !errTruthy r && textTruthy r then [(mapOutPath out e.path, r.text.getD "")]
    else []
  | none => []

/-- All writes a completed loop performs over a candidate list. -/
def expWrites (env : Env) (out? : Option (List String)) : List Entry → List (List String × String)
  | [] => []
  | e :: es =>
    (match env.extract e.path with
      | .ok r => stepWrites out? e r
      | .error _ => []) ++ expWrites env out? es

/-- The state a successful loop iteration leaves behind. -/
def stepOut (out? : Option (List String)) (e : Entry) (r : ExtractResult)
    (st : BatchState) : BatchState :=
  ⟨st.processed + (if errTruthy r then 0 else 1),
   st.errors + (if errTruthy r then 1 else 0),
   st.files ++ [recordOf e r],
   st.calls ++ [e.path],
   st.writes ++ stepWrites out? e r⟩

theorem errTruthy_false_iff (r : ExtractResult) :
    errTruthy r = false ↔ (r.error = none ∨ r.error = some "") := by
  unfold errTruthy
  cases h : r.error with
  | none => simp
  | some s => simp [bne]

theorem errTruthy_true_iff (r : ExtractResult) :
    errTruthy r = true ↔ ∃ s, r.error = some s ∧ s ≠ "" := by
  unfold errTruthy
  cases h : r.error with
  | none => simp
  | some s => simp [bne]

theorem batchStep_ok_shape (env : Env) (out? : Option (List String))
    (st : BatchState) (e : Entry) (st' : BatchState)
    (h : batchStep env out? st e = Except.ok st') :
    ∃ r, env.extract e.path = Except.ok r ∧ st' = stepOut out? e r st := by
  unfold batchStep at h
  cases henv : env.extract e.path with
  | error m => rw [henv] at h; cases h
  | ok r =>
    rw [henv] at h
    refine ⟨r, rfl, ?_⟩
    unfold stepOut stepWrites
    cases herr : errTruthy r with
    | true =>
      simp only [herr, if_true] at h ⊢
      injection h with h
      cases out? <;> simp [← h]
    | false =>
      simp only [herr, if_false, Bool.not_false, Bool.true_and] at h ⊢
      cases out? with
      | none =>
        injection h with h
        simp [← h]
      | some out =>
        cases htxt : textTruthy r with
        | false =>
          simp only [htxt, if_false] at h ⊢
          injection h with h
          simp [← h]
        | true =>
          simp only [htxt, if_true] at h ⊢
          cases hw : env.write (mapOutPath out e.path) (r.text.getD "") with
          | error m => rw [hw] at h; cases h
          | ok u =>
            rw [hw] at h
            injection h with h
            simp [← h]

theorem runBatch_ok_spec (env : Env) (out? : Option (List String))
    (l : List Entry) :
    ∀ (st st' : BatchState), runBatch env out? l st = Except.ok st' →
    st'.processed + st'.errors = st.processed + st.errors + l.length ∧
    st'.files.map (fun fr => fr.file)
      = st.files.map (fun fr => fr.file) ++ l.map (fun e => e.path) ∧
    st'.calls = st.calls ++ l.map (fun e => e.path) ∧
    st'.writes = st.writes ++ expWrites env out? l ∧
    st'.files.length = st.files.length + l.length := by
  induction l with
  | nil =>
    intro st st' h
    injection h with h
    subst h
    simp [expWrites]
  | cons e es ih =>
    intro st st' h
    simp only [runBatch] at h
    cases hs : batchStep env out? st e with
    | error m => rw [hs] at h; cases h
    | ok st1 =>
      rw [hs] at h
      obtain ⟨r, henv, hshape⟩ := batchStep_ok_shape env out? st e st1 hs
      obtain ⟨ih1, ih2, ih3, ih4, ih5⟩ := ih st1 st' h
      subst hshape
      unfold stepOut at ih1 ih2 ih3 ih4 ih5
      simp only [List.map_append, List.length_append, List.map_cons,
        List.length_cons, List.map_nil, List.length_nil] at ih1 ih2 ih3 ih4 ih5 ⊢
      refine ⟨?_, ?_, ?_, ?_, ?_⟩
      · cases herr : errTruthy r <;> simp [herr] at ih1 <;> omega
      · rw [ih2]
        simp [recordOf, List.append_assoc]
      · rw [ih3]
        simp [List.append_assoc]
      · rw [ih4]
        simp only [expWrites, henv, List.append_assoc]
      · omega

theorem batchStep_total (env : Env) (out? : Option (List String))
    (st : BatchState) (e : Entry)
    (hx : (env.extract e.path).isOk = true)
    (hw : ∀ d s, (env.write d s).isOk = true) :
    (batchStep env out? st e).isOk = true := by
  unfold batchStep
  cases henv : env.extract e.path with
  | error m => rw [henv] at hx; cases hx
  | ok r =>
    cases herr : errTruthy r with
    | true => simp [herr, Except.isOk, Except.toBool]
    | false =>
      simp only [herr, if_false]
      cases out? with
      | none => simp [Except.isOk, Except.toBool]
      | some out =>
        cases htxt : textTruthy r with
        | false => simp [htxt, Except.isOk, Except.toBool]
        | true =>
          simp only [htxt, if_true]
          cases hwr : env.write (mapOutPath out e.path) (r.text.getD "") with
          | error m =>
            have := hw (mapOutPath out e.path) (r.text.getD "")
            rw [hwr] at this
            cases this
          | ok u => simp [Except.isOk, Except.toBool]

theorem runBatch_total (env : Env) (out? : Option (List String))
    (l : List Entry)
    (hx : ∀ p, (env.extract p).isOk = true)
    (hw : ∀ d s, (env.write d s).isOk = true) :
    ∀ st, (runBatch env out? l st).isOk = true := by
  induction l with
  | nil => intro st; simp [runBatch, Except.isOk, Except.toBool]
  | cons e es ih =>
    intro st
    simp only [runBatch]
    cases hs : batchStep env out? st e with
    | error m =>
      have := batchStep_total env out? st e (hx e.path) hw
      rw [hs] at this
      cases this
    | ok st1 => exact ih st1

theorem extract_directory_ok (env : Env) (tree : List FSTree)
    (out? : Option (List String)) (st : BatchState)
    (h : extract_directory env tree out? = Except.ok st) :
    st.processed + st.errors = (candidates tree).length ∧
    st.files.map (fun fr => fr.file) = (candidates tree).map (fun e => e.path) ∧
    st.calls = (candidates tree).map (fun e => e.path) ∧
    st.writes = expWrites env out? (candidates tree) ∧
    st.files.length = (candidates tree).length := by
  unfold extract_directory at h
  by_cases hemp : (candidates tree).isEmpty
  · rw [if_pos hemp] at h
    injection h with h
    subst h
    rw [List.isEmpty_iff] at hemp
    rw [hemp]
    simp [expWrites]
  · rw [if_neg hemp] at h
    have := runBatch_ok_spec env out? (candidates tree) ⟨0, 0, [], [], []⟩ st h
    simpa using this

/-- An environment whose capability call raises. -/
def c1Env : Env := ⟨fun _ => .error "boom", fun _ _ => .ok ()⟩

/-- An environment whose capability reports an error in the result. -/
def c1wEnv : Env := ⟨fun _ => .ok ⟨none, none, none, some "bad"⟩, fun _ _ => .ok ()⟩

/-- Claim C1, as stated, is false: when the capability call itself raises,
the single-item pipeline does not return an outcome with the failure in
`errorMessage` — the exception propagates past the pipeline boundary. -/
theorem C1_counterexample :
    extract_single_file c1Env ["a.pdf"] none = Except.error "boom" ∧
    (extract_single_file c1Env ["a.pdf"] none).isOk = false := ⟨rfl, rfl⟩

/-- Claim C1 amended: a capability-reported error is captured in the
outcome's error field and returned without raising and without writing;
but an exception raised by the capability call, or an output I/O failure
during the write, propagates past the pipeline boundary. -/
theorem C1_amended :
    (∀ env p out r, env.extract p = Except.ok r → errTruthy r = true →
      extract_single_file env p out = Except.ok (r, [])) ∧
    (∀ env p out m, env.extract p = Except.error m →
      extract_single_file env p out = Except.error m) ∧
    (∀ env p d r m, env.extract p = Except.ok r → errTruthy r = false →
      textTruthy r = true → env.write d (r.text.getD "") = Except.error m →
      extract_single_file env p (some d) = Except.error m) := by
  refine ⟨?_, ?_, ?_⟩
  · intro env p out r h he
    simp [extract_single_file, h, he]
  · intro env p out m h
    simp [extract_single_file, h]
  · intro env p d r m h he ht hw
    simp [extract_single_file, h, he, ht, hw]

/-- Witness for C1 amended at a concrete environment: a reported error is
returned as data. -/
theorem C1_amended_witness :
    extract_single_file c1wEnv ["a.pdf"] none
      = Except.ok (⟨none, none, none, some "bad"⟩, []) :=
  C1_amended.1 c1wEnv ["a.pdf"] none ⟨none, none, none, some "bad"⟩ rfl rfl

/-- An environment whose capability succeeds with empty text. -/
def c2Env : Env := ⟨fun _ => .ok ⟨some "", some 0, some 0, none⟩, fun _ _ => .ok ()⟩

/-- An environment whose capability succeeds with non-empty text. -/
def c2wEnv : Env :=
  ⟨fun _ => .ok ⟨some "hello", some 5, some 1, none⟩, fun _ _ => .ok ()⟩

/-- Claim C2, as stated, is false: with an output destination supplied and
`text` present but equal to the empty string, no write is performed (the
performed-write list is empty), because `result.get('text')` is falsy. -/
theorem C2_counterexample :
    extract_single_file c2Env ["a.pdf"] (some ["out.txt"])
      = Except.ok (⟨some "", some 0, some 0, none⟩, []) ∧
    (⟨some "", some 0, some 0, none⟩ : ExtractResult).text = some "" :=
  ⟨rfl, rfl⟩

/-- Claim C2 amended: with an output destination supplied, the text is
written exactly when it is present and non-empty (and no error was
reported); when the text is absent or empty, or an error was reported, no
output file is created. -/
theorem C2_amended :
    (∀ env p d r, env.extract p = Except.ok r → errTruthy r = false →
      textTruthy r = true → env.write d (r.text.getD "") = Except.ok () →
      extract_single_file env p (some d)
        = Except.ok (r, [(d, r.text.getD "")])) ∧
    (∀ env p d r, env.extract p = Except.ok r → errTruthy r = false →
      textTruthy r = false →
      extract_single_file env p (some d) = Except.ok (r, [])) ∧
    (∀ env p d r, env.extract p = Except.ok r → errTruthy r = true →
      extract_single_file env p (some d) = Except.ok (r, [])) := by
  refine ⟨?_, ?_, ?_⟩
  · intro env p d r h he ht hw
    simp [extract_single_file, h, he, ht, hw]
  · intro env p d r h he ht
    simp [extract_single_file, h, he, ht]
  · intro env p d r h he
    simp [extract_single_file, h, he]

/-- Witness for C2 amended at a concrete environment: non-empty text is
written to the supplied destination. -/
theorem C2_amended_witness :
    extract_single_file c2wEnv ["a.pdf"] (some ["out.txt"])
      = Except.ok (⟨some "hello", some 5, some 1, none⟩, [(["out.txt"], "hello")]) :=
  C2_amended.1 c2wEnv ["a.pdf"] ["out.txt"] ⟨some "hello", some 5, some 1, none⟩
    rfl rfl rfl rfl

/-- Claim C3: for every directory batch run that returns a report,
`processedCount + errorCount` equals the number of file records, and each
successful loop iteration increments exactly one counter and appends
exactly one record, so the invariant holds after every iteration. -/
theorem C3_invariant :
    (∀ env tree out st, extract_directory env tree out = Except.ok st →
      st.processed + st.errors = st.files.length) ∧
    (∀ env out st e st', batchStep env out st e = Except.ok st' →
      st.processed + st.errors = st.files.length →
      st'.processed + st'.errors = st'.files.length ∧
      st'.files.length = st.files.length + 1 ∧
      st'.processed + st'.errors = st.processed + st.errors + 1) := by
  constructor
  · intro env tree out st h
    obtain ⟨h1, _, _, _, h5⟩ := extract_directory_ok env tree out st h
    omega
  · intro env out st e st' h hinv
    obtain ⟨r, henv, hshape⟩ := batchStep_ok_shape env out st e st' h
    subst hshape
    unfold stepOut
    simp only [List.length_append, List.length_cons, List.length_nil]
    cases herr : errTruthy r <;> simp <;> omega

/-- A concrete batch state produced by a one-file run. -/
def c3St : BatchState := ⟨1, 0, [⟨["a.pdf"], true, 1, 1, none⟩], [["a.pdf"]], []⟩

/-- An environment for the C3 witness run. -/
def c3Env : Env := ⟨fun _ => .ok ⟨some "x", some 1, some 1, none⟩, fun _ _ => .ok ()⟩

/-- Witness for C3 at a concrete run: the invariant holds on the returned
report. -/
theorem C3_invariant_witness : c3St.processed + c3St.errors = c3St.files.length :=
  C3_invariant.1 c3Env [FSTree.file "a.pdf"] none c3St rfl

/-- An environment for the C4 counterexample run. -/
def c4Env : Env := ⟨fun _ => .ok ⟨none, none, none, some "corrupt"⟩, fun _ _ => .ok ()⟩

/-- A tree whose only entry is a directory named with a supported suffix. -/
def c4Tree : List FSTree := [FSTree.dir "reports.pdf" []]

/-- Claim C4, as stated, is false: in a tree whose only entry is a
directory named `reports.pdf`, the walk counts one outcome although the
number of regular files with a supported extension is zero. -/
theorem C4_counterexample :
    (extract_directory c4Env c4Tree none).toOption.map
      (fun st => st.processed + st.errors) = some 1 ∧
    specFileCount c4Tree = 0 ∧
    ¬((extract_directory c4Env c4Tree none).toOption.map
      (fun st => st.processed + st.errors) = some (specFileCount c4Tree)) := by
  refine ⟨rfl, rfl, ?_⟩
  decide

/-- Claim C4 amended: `processedCount + errorCount` equals the number of
walked entries — regular files or directories — whose suffix, compared
case-insensitively, is in the supported set; entries with unsupported
suffixes are excluded entirely (every record's file name has a supported
suffix, and records are exactly the candidate entries in order). -/
theorem C4_amended (env : Env) (tree : List FSTree)
    (out : Option (List String)) (st : BatchState)
    (h : extract_directory env tree out = Except.ok st) :
    st.processed + st.errors = (candidates tree).length ∧
    st.files.map (fun fr => fr.file) = (candidates tree).map (fun e => e.path) ∧
    ∀ fr ∈ st.files, isSupported (lastSeg fr.file) = true := by
  obtain ⟨h1, h2, _, _, _⟩ := extract_directory_ok env tree out st h
  refine ⟨h1, h2, ?_⟩
  intro fr hfr
  have hmem : fr.file ∈ st.files.map (fun fr => fr.file) :=
    List.mem_map_of_mem _ hfr
  rw [h2] at hmem
  obtain ⟨e, he, hpe⟩ := List.mem_map.mp hmem
  unfold candidates at he
  have hsup := List.of_mem_filter he
  rw [← hpe]
  exact hsup

/-- An environment for the C4 witness run. -/
def c4wEnv : Env := ⟨fun _ => .ok ⟨some "x", some 1, some 1, none⟩, fun _ _ => .ok ()⟩

/-- A tree with one supported and one unsupported file. -/
def c4wTree : List FSTree := [FSTree.file "a.pdf", FSTree.file "b.txt"]

/-- A concrete batch state for the C4 witness run. -/
def c4wSt : BatchState := ⟨1, 0, [⟨["a.pdf"], true, 1, 1, none⟩], [["a.pdf"]], []⟩

/-- Witness for C4 amended at a concrete run: the unsupported `b.txt` is
excluded and the counters match the candidate count. -/
theorem C4_amended_witness :
    c4wSt.processed + c4wSt.errors = (candidates c4wTree).length :=
  (C4_amended c4wEnv c4wTree none c4wSt rfl).1

/-- A tree where `rglob` order differs from node pre-order and from lexical
order: a directory `a` containing `c.pdf`, next to a file `b.pdf`. -/
def c5Tree : List FSTree := [FSTree.dir "a" [FSTree.file "c.pdf"], FSTree.file "b.pdf"]

/-- An environment for the C5 counterexample run. -/
def c5Env : Env := ⟨fun _ => .ok ⟨some "x", some 1, some 1, none⟩, fun _ _ => .ok ()⟩

/-- Claim C5, as stated, is false in its order clause: the FileRecords of a
run appear in `rglob` order (`b.pdf` before `a/c.pdf`, each directory's own
entries before its subdirectories' descendants), which at this tree is
neither a depth-first node pre-order nor the lexical order by full relative
path (both of which put `a/c.pdf` first). -/
theorem C5_counterexample :
    (extract_directory c5Env c5Tree none).toOption.map
      (fun st => st.files.map (fun fr => fr.file))
      = some [["b.pdf"], ["a", "c.pdf"]] ∧
    specPreorderPaths c5Tree = [["a", "c.pdf"], ["b.pdf"]] ∧
    specLexicalPaths c5Tree = [["a", "c.pdf"], ["b.pdf"]] ∧
    ¬((extract_directory c5Env c5Tree none).toOption.map
        (fun st => st.files.map (fun fr => fr.file))
        = some (specPreorderPaths c5Tree)) ∧
    ¬((extract_directory c5Env c5Tree none).toOption.map
        (fun st => st.files.map (fun fr => fr.file))
        = some (specLexicalPaths c5Tree)) := by
  refine ⟨rfl, rfl, rfl, ?_, ?_⟩ <;> decide

/-- Claim C5 amended: the record order of a completed batch run is a
function of the tree alone — any two completed runs over the same tree,
whatever their environments and output roots, list the same file paths in
the same order, namely the `rglob` candidate enumeration; that order is
not in general a node pre-order or a lexically sorted order. -/
theorem C5_amended (tree : List FSTree) (env1 env2 : Env)
    (out1 out2 : Option (List String)) (st1 st2 : BatchState)
    (h1 : extract_directory env1 tree out1 = Except.ok st1)
    (h2 : extract_directory env2 tree out2 = Except.ok st2) :
    st1.files.map (fun fr => fr.file) = st2.files.map (fun fr => fr.file) ∧
    st1.files.map (fun fr => fr.file) = (candidates tree).map (fun e => e.path) := by
  obtain ⟨_, ha, _, _, _⟩ := extract_directory_ok env1 tree out1 st1 h1
  obtain ⟨_, hb, _, _, _⟩ := extract_directory_ok env2 tree out2 st2 h2
  exact ⟨ha.trans hb.symm, ha⟩

/-- An environment whose capability reports an error on every file. -/
def c5wEnv : Env := ⟨fun _ => .ok ⟨none, none, none, some "bad"⟩, fun _ _ => .ok ()⟩

/-- The batch state of the C5 witness run under `c5Env`. -/
def c5wSt1 : BatchState :=
  ⟨2, 0, [⟨["b.pdf"], true, 1, 1, none⟩, ⟨["a", "c.pdf"], true, 1, 1, none⟩],
    [["b.pdf"], ["a", "c.pdf"]], []⟩

/-- The batch state of the C5 witness run under `c5wEnv`. -/
def c5wSt2 : BatchState :=
  ⟨0, 2, [⟨["b.pdf"], false, 0, 0, some "bad"⟩, ⟨["a", "c.pdf"], false, 0, 0, some "bad"⟩],
    [["b.pdf"], ["a", "c.pdf"]], []⟩

/-- Witness for C5 amended: two concrete runs over the same tree, one all
successes and one all failures, produce records in the identical order. -/
theorem C5_amended_witness :
    c5wSt1.files.map (fun fr => fr.file) = c5wSt2.files.map (fun fr => fr.file) :=
  (C5_amended c5Tree c5Env c5wEnv none none c5wSt1 c5wSt2 rfl rfl).1

/-- Claim C6: the exit status is 0 for a single file whose extraction
reported no error and for a directory batch with zero errors (including
the zero-candidate case), and 1 for a missing path, a path that is neither
file nor directory, a single-file extraction that reported an error, or a
batch with errors. -/
theorem C6_exit_status :
    (∀ env fp tree out, mainExit env PathKind.missing fp tree out = Except.ok 1) ∧
    (∀ env fp tree out, mainExit env PathKind.other fp tree out = Except.ok 1) ∧
    (∀ env fp tree out r w, extract_single_file env fp out = Except.ok (r, w) →
      mainExit env PathKind.isFile fp tree out
        = Except.ok (if errTruthy r then 1 else 0)) ∧
    (∀ env fp tree out st, extract_directory env tree out = Except.ok st →
      mainExit env PathKind.isDir fp tree out
        = Except.ok (if st.errors = 0 then 0 else 1)) ∧
    (∀ env fp tree out, candidates tree = [] →
      mainExit env PathKind.isDir fp tree out = Except.ok 0) := by
  refine ⟨fun env fp tree out => rfl, fun env fp tree out => rfl, ?_, ?_, ?_⟩
  · intro env fp tree out r w h
    simp [mainExit, h]
  · intro env fp tree out st h
    simp [mainExit, h]
  · intro env fp tree out h
    simp [mainExit, extract_directory, h]

/-- An environment for the C6 witness run. -/
def c6Env : Env := ⟨fun _ => .ok ⟨some "x", some 1, some 1, none⟩, fun _ _ => .ok ()⟩

/-- Witness for C6 at a concrete input: a directory with no supported files
exits with status 0. -/
theorem C6_exit_status_witness :
    mainExit c6Env PathKind.isDir [] [FSTree.file "b.txt"] none = Except.ok 0 :=
  C6_exit_status.2.2.2.2 c6Env [] [FSTree.file "b.txt"] none rfl

theorem expWrites_mem (env : Env) (out : List String) (l : List Entry)
    (w : List String × String) (h : w ∈ expWrites env (some out) l) :
    ∃ e ∈ l, ∃ r, env.extract e.path = Except.ok r ∧
      errTruthy r = false ∧ textTruthy r = true ∧
      w = (mapOutPath out e.path, r.text.getD "") := by
  induction l with
  | nil => cases h
  | cons e es ih =>
    simp only [expWrites, List.mem_append] at h
    cases h with
    | inl h =>
      cases henv : env.extract e.path with
      | error m => rw [henv] at h; cases h
      | ok r =>
        rw [henv] at h
        unfold stepWrites at h
        simp only at h
        by_cases hc : (!errTruthy r && textTruthy r) = true
        · rw [if_pos hc] at h
          simp only [Bool.and_eq_true, Bool.not_eq_true'] at hc
          obtain ⟨he, ht⟩ := hc
          rw [List.mem_singleton] at h
          exact ⟨e, List.mem_cons_self e es, r, henv, he, ht, h⟩
        · rw [if_neg hc] at h
          cases h
    | inr h =>
      obtain ⟨e', he', rest⟩ := ih h
      exact ⟨e', List.mem_cons_of_mem _ he', rest⟩

/-- An environment whose capability succeeds with empty text on every
file. -/
def c7Env : Env := ⟨fun _ => .ok ⟨some "", some 0, some 0, none⟩, fun _ _ => .ok ()⟩

/-- A tree with a single supported file. -/
def c7Tree : List FSTree := [FSTree.file "a.pdf"]

/-- Claim C7, as stated, is false: a file whose extraction succeeds with
empty text is counted as processed but produces no output artifact at all
(the write trace is empty), because `result.get('text')` is falsy. -/
theorem C7_counterexample :
    (extract_directory c7Env c7Tree (some ["out"])).toOption.map
      (fun st => (st.processed, st.writes)) = some (1, []) := by
  decide

/-- Claim C7 amended: in directory mode with an output root, the artifacts
written by a completed run are exactly those of the candidate files whose
extraction reported no error and returned non-empty text, and each such
artifact's path is the output root joined with the file's path relative to
the input root, intermediate segments preserved, the original extension
replaced by `.txt`; failed files — and successes with empty text — produce
no artifact. -/
theorem C7_amended (env : Env) (tree : List FSTree) (out : List String)
    (st : BatchState) (h : extract_directory env tree (some out) = Except.ok st) :
    st.writes = expWrites env (some out) (candidates tree) ∧
    ∀ w ∈ st.writes, ∃ e ∈ candidates tree,
      w.1 = out ++ e.path.dropLast ++ [withSuffixTxt (lastSeg e.path)] ∧
      ∃ r, env.extract e.path = Except.ok r ∧
        errTruthy r = false ∧ textTruthy r = true ∧ w.2 = r.text.getD "" := by
  obtain ⟨_, _, _, h4, _⟩ := extract_directory_ok env tree (some out) st h
  refine ⟨h4, ?_⟩
  intro w hw
  rw [h4] at hw
  obtain ⟨e, he, r, henv, herr, htxt, hweq⟩ :=
    expWrites_mem env out (candidates tree) w hw
  refine ⟨e, he, ?_, r, henv, herr, htxt, ?_⟩
  · rw [hweq]
    rfl
  · rw [hweq]

/-- An environment whose capability succeeds with non-empty text. -/
def c7wEnv : Env :=
  ⟨fun _ => .ok ⟨some "hello", some 5, some 1, none⟩, fun _ _ => .ok ()⟩

/-- A tree with one supported file inside a subdirectory. -/
def c7wTree : List FSTree := [FSTree.dir "sub" [FSTree.file "a.pdf"]]

/-- The batch state of the C7 witness run: one success, one mirrored
write. -/
def c7wSt : BatchState :=
  ⟨1, 0, [⟨["sub", "a.pdf"], true, 5, 1, none⟩], [["sub", "a.pdf"]],
    [(["out", "sub", "a.txt"], "hello")]⟩

/-- Witness for C7 amended at a concrete run: the single write of the run
is the expected mirrored-path write. -/
theorem C7_amended_witness :
    c7wSt.writes = expWrites c7wEnv (some ["out"]) (candidates c7wTree) :=
  (C7_amended c7wEnv c7wTree ["out"] c7wSt rfl).1

/-- An environment whose capability call raises on every file. -/
def c8Env : Env := ⟨fun _ => .error "boom", fun _ _ => .ok ()⟩

/-- A tree with two supported files. -/
def c8Tree : List FSTree := [FSTree.file "a.pdf", FSTree.file "b.pdf"]

/-- Claim C8, as stated, is false: when processing the first of two
matching files raises an exception, the walk aborts — no report is
returned and the second file is never reached. -/
theorem C8_counterexample :
    extract_directory c8Env c8Tree none = Except.error "boom" ∧
    (candidates c8Tree).length = 2 := ⟨rfl, rfl⟩

/-- Claim C8 amended: a capability-reported failure never aborts the walk —
when every capability call returns a result (reporting errors as data) and
every write succeeds, the run completes; and any completed run has invoked
the capability exactly once per matching entry, in traversal order.  An
exception raised by a capability call or a failed write, however, aborts
the walk. -/
theorem C8_amended :
    (∀ env tree out st, extract_directory env tree out = Except.ok st →
      st.calls = (candidates tree).map (fun e => e.path)) ∧
    (∀ env tree out, (∀ p, (env.extract p).isOk = true) →
      (∀ d s, (env.write d s).isOk = true) →
      (extract_directory env tree out).isOk = true) := by
  constructor
  · intro env tree out st h
    obtain ⟨_, _, h3, _, _⟩ := extract_directory_ok env tree out st h
    exact h3
  · intro env tree out hx hw
    unfold extract_directory
    by_cases hemp : (candidates tree).isEmpty
    · rw [if_pos hemp]
      rfl
    · rw [if_neg hemp]
      exact runBatch_total env out (candidates tree) hx hw ⟨0, 0, [], [], []⟩

/-- An environment whose capability reports a failure on every file but
never raises. -/
def c8wEnv : Env := ⟨fun _ => .ok ⟨none, none, none, some "bad"⟩, fun _ _ => .ok ()⟩

/-- Witness for C8 amended at a concrete run: with reported failures on
both files the walk still completes. -/
theorem C8_amended_witness :
    (extract_directory c8wEnv c8Tree none).isOk = true :=
  C8_amended.2 c8wEnv c8Tree none (fun _ => rfl) (fun _ _ => rfl)

/-- An environment whose capability returns an empty-string error value. -/
def c9Env : Env := ⟨fun _ => .ok ⟨none, none, none, some ""⟩, fun _ _ => .ok ()⟩

/-- A tree with a single supported file. -/
def c9Tree : List FSTree := [FSTree.file "a.pdf"]

/-- Claim C9, as stated, is false: an outcome that carries
`errorMessage = ""` (present but empty) yields a record with
`success = true`, no stored error, and a processed-counter increment,
because `result.get('error')` is falsy. -/
theorem C9_counterexample :
    extract_directory c9Env c9Tree none
      = Except.ok ⟨1, 0, [⟨["a.pdf"], true, 0, 0, none⟩], [["a.pdf"]], []⟩ ∧
    c9Env.extract ["a.pdf"] = Except.ok ⟨none, none, none, some ""⟩ :=
  ⟨rfl, rfl⟩

/-- Claim C9 amended: each aggregated outcome appends exactly one record
whose success flag is true iff the outcome's error field is absent or the
empty string; the record preserves the source path, stores the error
message exactly when it is present and non-empty, preserves present
counts, and defaults each absent count to 0. -/
theorem C9_amended (env : Env) (out : Option (List String)) (st : BatchState)
    (e : Entry) (st' : BatchState) (h : batchStep env out st e = Except.ok st') :
    ∃ r, env.extract e.path = Except.ok r ∧
    ∃ fr, st'.files = st.files ++ [fr] ∧
      fr.file = e.path ∧
      (fr.success = true ↔ (r.error = none ∨ r.error = some "")) ∧
      ((r.error = none ∨ r.error = some "") → fr.err = none) ∧
      (∀ s, r.error = some s → s ≠ "" → fr.err = some s) ∧
      (r.char_count = none → fr.chars = 0) ∧
      (∀ n, r.char_count = some n → fr.chars = n) ∧
      (r.word_count = none → fr.words = 0) ∧
      (∀ n, r.word_count = some n → fr.words = n) := by
  obtain ⟨r, henv, hshape⟩ := batchStep_ok_shape env out st e st' h
  subst hshape
  refine ⟨r, henv, recordOf e r, rfl, rfl, ?_, ?_, ?_, ?_, ?_, ?_, ?_⟩
  · show (!errTruthy r) = true ↔ (r.error = none ∨ r.error = some "")
    rw [Bool.not_eq_true']
    exact errTruthy_false_iff r
  · intro hs
    have herr : errTruthy r = false := (errTruthy_false_iff r).mpr hs
    simp [recordOf, herr]
  · intro s hso hne
    have herr : errTruthy r = true := (errTruthy_true_iff r).mpr ⟨s, hso, hne⟩
    simp [recordOf, herr, hso]
  · intro hc
    unfold recordOf
    simp [hc]
  · intro n hc
    unfold recordOf
    simp [hc]
  · intro hc
    unfold recordOf
    simp [hc]
  · intro n hc
    unfold recordOf
    simp [hc]

/-- An environment whose capability reports a genuine error. -/
def c9wEnv : Env := ⟨fun _ => .ok ⟨none, none, none, some "bad"⟩, fun _ _ => .ok ()⟩

/-- The entry processed in the C9 witness run. -/
def c9wEntry : Entry := ⟨["a.pdf"], FSTree.file "a.pdf"⟩

/-- The state after the C9 witness step. -/
def c9wSt : BatchState :=
  ⟨0, 1, [⟨["a.pdf"], false, 0, 0, some "bad"⟩], [["a.pdf"]], []⟩

/-- Witness for C9 amended at a concrete step: a reported failure appends
one failed record with counts defaulted to 0 and the message stored. -/
theorem C9_amended_witness :
    ∃ r, c9wEnv.extract c9wEntry.path = Except.ok r ∧
    ∃ fr, c9wSt.files = ([] : List FileRecord) ++ [fr] ∧
      fr.file = c9wEntry.path ∧
      (fr.success = true ↔ (r.error = none ∨ r.error = some "")) ∧
      ((r.error = none ∨ r.error = some "") → fr.err = none) ∧
      (∀ s, r.error = some s → s ≠ "" → fr.err = some s) ∧
      (r.char_count = none → fr.chars = 0) ∧
      (∀ n, r.char_count = some n → fr.chars = n) ∧
      (r.word_count = none → fr.words = 0) ∧
      (∀ n, r.word_count = some n → fr.words = n) :=
  C9_amended c9wEnv none ⟨0, 0, [], [], []⟩ c9wEntry c9wSt rfl

/-- An environment for the C10 run. -/
def c10Env : Env :=
  ⟨fun _ => .ok ⟨none, none, none, some "is a directory"⟩, fun _ _ => .ok ()⟩

/-- A tree containing a directory whose own name ends in `.pdf`. -/
def c10Tree : List FSTree := [FSTree.dir "reports.pdf" []]

/-- Claim C10: the candidate filter tests only the case-insensitive suffix
and never that the entry is a regular file — for this tree, the directory
`reports.pdf` is selected as a candidate and the extraction capability is
invoked on it. -/
theorem C10_dir_candidate :
    (candidates c10Tree).map (fun e => (e.path, e.node.isDirNode))
      = [(["reports.pdf"], true)] ∧
    (extract_directory c10Env c10Tree none).toOption.map (fun st => st.calls)
      = some [["reports.pdf"]] :=
  ⟨rfl, rfl⟩
